import Mathlib

/-!
# Feed synchronisation engine of the RSS feed plugin (`server/plugin.go`)

A shallow embedding of the heartbeat loop, the per-subscription pipeline and the
item differ, followed by the properties established about them.

Conventions of the embedding

* Go pointers that the code dereferences and that a collaborator may hand back as
  `nil` (`*gofeed.Feed`) are `Option` values; a `nil` dereference is the outcome
  `panicked`.
* External collaborators (format validators, parsers, the post API, the store) are
  fields of `World`: the code is embedded once, for every behaviour of theirs.
* Effects are recorded in a trace of `Event`s that is threaded through the code.
-/

namespace RSSFeed

/-! ## Data model -/

/-- Fields of `gofeed.Item` read by the plugin. The feeds hold pointers to items;
the parser never stores a nil one, so an item is a value here. -/
structure Item where
  Title : String
  Link : String
  Description : String
  GUID : String
  Categories : List String
deriving DecidableEq, Repr

/-- Fields of `gofeed.Feed` read by the plugin. -/
structure Feed where
  Title : String
  Items : List Item
deriving DecidableEq, Repr

/-! ## Item differ (`plugin.go`, lines 162-178) -/

/-- Inner loop of `CompareItemsBetweenOldAndNew`: walks the old items and stops
(`break`) at the first one whose GUID equals `guid`; the result is the final value
of the flag `exists`. -/
def existsLoop (guid : String) : List Item → Bool
  | [] => false
  | item2 :: rest => if guid = item2.GUID then true else existsLoop guid rest

/-- Outer loop of `CompareItemsBetweenOldAndNew`: `itemList` is the slice built so
far, extended by `append` with every new item for which the flag stays false. -/
def compareLoop (oldItems : List Item) : List Item → List Item → List Item
  | [], itemList => itemList
  | item1 :: rest, itemList =>
    if existsLoop item1.GUID oldItems then compareLoop oldItems rest itemList
    else compareLoop oldItems rest (itemList ++ [item1])

/-- The function `CompareItemsBetweenOldAndNew` on two feeds (non-nil pointers). -/
def CompareItemsBetweenOldAndNew (feedOld feedNew : Feed) : List Item :=
  compareLoop feedOld.Items feedNew.Items []

/-- The call `CompareItemsBetweenOldAndNew(feedOld, feedNew)` on pointers that may
be nil. `feedNew.Items` is evaluated when the outer loop starts, `feedOld.Items`
each time the inner loop starts, hence only when the new feed has an item.
`none` stands for the nil-pointer panic. -/
def compareItemsPtr (feedOld feedNew : Option Feed) : Option (List Item) :=
  match feedNew with
  | none => none
  | some fNew =>
    match fNew.Items, feedOld with
    | [], _ => some []
    | _ :: _, none => none
    | _ :: _, some fOld => some (CompareItemsBetweenOldAndNew fOld fNew)

/-! ## Configuration and `getHeartbeatTime` (`plugin.go`, lines 90-102) -/

/-- The plugin settings read by this file (`config.Heartbeat`,
`config.ShowDescription`). -/
structure configuration where
  Heartbeat : String
  ShowDescription : Bool
deriving DecidableEq, Repr

/-- The two errors of Go's `strconv` package (`ErrSyntax`, `ErrRange`). -/
inductive NumErr
  | invalid
  | outOfRange
deriving DecidableEq, Repr

/-- The digit loop of `strconv.ParseUint` for base 10 and 64 bits, left to right:
a character that is not a decimal digit is a syntax error, and a value that leaves
the unsigned 64-bit range is a range error, whichever comes first. -/
def parseUintLoop : List Char → Nat → Except NumErr Nat
  | [], n => .ok n
  | c :: rest, n =>
    if c.isDigit then
      if n ≥ (2 ^ 64 - 1) / 10 + 1 then .error .outOfRange
      else if n * 10 + (c.toNat - 48) > 2 ^ 64 - 1 then .error .outOfRange
      else parseUintLoop rest (n * 10 + (c.toNat - 48))
    else .error .invalid

/-- The error value `*strconv.NumError`: the failing function, the input and the
kind of failure. Its text (`Error()`, which quotes `Num` with `strconv.Quote`) is
not rendered here; the error is kept as a value. -/
structure NumError where
  Func : String
  Num : String
  Err : NumErr
deriving DecidableEq, Repr

/-- Go's `strconv.Atoi` on a 64-bit platform (standard library, through
`ParseInt(s, 10, 0)`, with which its fast path for short strings agrees): an
optional sign `+` or `-`, then at least one decimal digit and nothing else; the
value must lie in the range of `int`. -/
def Atoi (s : String) : Except NumError Int :=
  match s.toList with
  | [] => .error ⟨"Atoi", s, .invalid⟩
  | '-' :: rest =>
    if rest = [] then .error ⟨"Atoi", s, .invalid⟩
    else
      match parseUintLoop rest 0 with
      | .error e => .error ⟨"Atoi", s, e⟩
      | .ok un => if un > 2 ^ 63 then .error ⟨"Atoi", s, .outOfRange⟩ else .ok (-(un : Int))
  | '+' :: rest =>
    if rest = [] then .error ⟨"Atoi", s, .invalid⟩
    else
      match parseUintLoop rest 0 with
      | .error e => .error ⟨"Atoi", s, e⟩
      | .ok un => if un ≥ 2 ^ 63 then .error ⟨"Atoi", s, .outOfRange⟩ else .ok (un : Int)
  | digits =>
    match parseUintLoop digits 0 with
    | .error e => .error ⟨"Atoi", s, e⟩
    | .ok un => if un ≥ 2 ^ 63 then .error ⟨"Atoi", s, .outOfRange⟩ else .ok (un : Int)

/-- The function `getHeartbeatTime`: the pair `(int, error)` it returns, a nil error
being `none`. -/
def getHeartbeatTime (config : configuration) : Int × Option NumError :=
  if config.Heartbeat.length > 0 then
    match Atoi config.Heartbeat with
    | .error err => (15, some err)
    | .ok heartbeatTime => (heartbeatTime, none)
  else (15, none)

/-! ## Decimal numerals, as the specification reads them -/

/-- Specification side: the characters of a numeral after its optional sign. -/
def numeralDigits (s : String) : List Char :=
  match s.toList with
  | '-' :: rest => rest
  | '+' :: rest => rest
  | cs => cs

/-- Specification side: a string is a decimal numeral when it is an optional sign
`+` or `-` followed by one or more of the digits `0` to `9`, and nothing else. -/
def isNumeral (s : String) : Bool :=
  !(numeralDigits s).isEmpty && (numeralDigits s).all Char.isDigit

/-- Specification side: the natural number written by a run of digits in positional
notation, the first digit weighing ten to the number of digits after it. -/
def digitsNat : List Char → Nat
  | [] => 0
  | c :: rest => (c.toNat - 48) * 10 ^ rest.length + digitsNat rest

/-- Specification side: the integer denoted by a decimal numeral. -/
def numeralValue (s : String) : Int :=
  match s.toList with
  | '-' :: rest => -(digitsNat rest : Int)
  | _ => (digitsNat (numeralDigits s) : Int)

/-- The largest interval whose duration in nanoseconds fits a signed 64-bit integer:
153722867 minutes. -/
def maxWholeMinutes : Int := (2 ^ 63 - 1) / 60000000000

/-! ## Collaborators and effects -/

/-- A stored subscription (`Subscription`): the fields the pipeline reads and writes. -/
structure Subscription where
  URL : String
  ChannelID : String
  XML : String
deriving DecidableEq, Repr

/-- Fields of `model.Post` set by `createBotPost` (`PostType` is its field `Type`). -/
structure Post where
  UserId : String
  ChannelId : String
  Message : String
  PostType : String
deriving DecidableEq, Repr

/-- Item of an `rssv2parser` feed: the fields read by the plugin, and its identifier. -/
structure RssItem where
  Title : String
  Link : String
  Description : String
  GUID : String
deriving DecidableEq, Repr

/-- Channel of an `rssv2parser` feed. -/
structure RssChannel where
  Title : String
  ItemList : List RssItem
deriving DecidableEq, Repr

/-- Feed returned by `rssv2parser`. -/
structure RSSV2 where
  Channel : RssChannel
deriving DecidableEq, Repr

/-- The two feed formats. -/
inductive FeedFormat
  | rss2
  | atom
deriving DecidableEq, Repr

/-- Calls made to the collaborators, in the order they are made. `logError msg` is
`LogError` on the text `msg`, `logNumError err` is `LogError(err.Error())` for a
conversion error. -/
inductive Event
  | isValidFeed (format : FeedFormat) (url : String)
  | parseURL (format : FeedFormat) (url : String)
  | parseString (format : FeedFormat) (xml : String)
  | createPost (post : Post)
  | logError (msg : String)
  | logNumError (err : NumError)
  | updateSubscription (subscription : Subscription)
  | getSubscriptions
  | sleep (nanoseconds : Int)
deriving DecidableEq, Repr

/-- Everything the plugin reads from outside `plugin.go` during one cycle: its own
fields, the identifier `newFeedString` (used at line 229 and bound nowhere in
`plugin.go`), and the responses of the collaborators. `createPost` answers `none`
on success and the error otherwise, and may depend on all earlier events. The two
`gofeed` calls return a pair `(*Feed, error)` whose feed is nil exactly when the
error is not; `getSubscriptions` lists the subscriptions in the order in which the
cycle iterates over them. -/
structure World where
  config : configuration
  botUserID : String
  newFeedString : String
  rssIsValidFeed : String → Bool
  atomIsValidFeed : String → Bool
  rssParseURL : String → Except String (RSSV2 × String)
  rssParseString : String → Except String RSSV2
  rssCompare : RSSV2 → RSSV2 → List RssItem
  gofeedParseURL : String → Except String Feed
  gofeedParseString : String → Except String Feed
  html2md : String → String
  createPost : List Event → Post → Option String
  getSubscriptions : Except String (List Subscription)

/-- How a call ends: it returns its `error` result (`none` for nil) or panics. -/
inductive Outcome
  | returned (err : Option String)
  | panicked
deriving DecidableEq, Repr

/-- Result of one pipeline run: how it ended, the subscription record afterwards
(it is passed by pointer and updated in place) and the events so far. -/
structure Run where
  outcome : Outcome
  subscription : Subscription
  trace : List Event
deriving DecidableEq, Repr

/-- The posts attempted in a trace, in order. -/
def postsOf : List Event → List Post
  | [] => []
  | .createPost post :: rest => post :: postsOf rest
  | _ :: rest => postsOf rest

/-- The subscriptions handed to the store in a trace, in order. -/
def updatesOf : List Event → List Subscription
  | [] => []
  | .updateSubscription subscription :: rest => subscription :: updatesOf rest
  | _ :: rest => updatesOf rest

/-- The sleeps of a trace, in order. -/
def sleepsOf : List Event → List Int
  | [] => []
  | .sleep d :: rest => d :: sleepsOf rest
  | _ :: rest => sleepsOf rest

/-! ## Per-subscription pipeline (`plugin.go`, lines 104-254) -/

/-- The post built by `createBotPost`. -/
def botPost (w : World) (channelID message postType : String) : Post :=
  { UserId := w.botUserID, ChannelId := channelID, Message := message, PostType := postType }

/-- The function `createBotPost`: one `CreatePost` call, logged when it fails; the
second component is the returned error. -/
def createBotPost (w : World) (tr : List Event) (channelID message postType : String) :
    List Event × Option String :=
  match w.createPost tr (botPost w channelID message postType) with
  | some err =>
    (tr ++ [.createPost (botPost w channelID message postType), .logError err], some err)
  | none => (tr ++ [.createPost (botPost w channelID message postType)], none)

/-- The loops `for _, item := range items` of both format paths: one
`createBotPost` per item, its result discarded. -/
def postLoop {α : Type} (w : World) (channelID : String) (body : α → String) :
    List α → List Event → List Event
  | [], tr => tr
  | item :: rest, tr =>
    postLoop w channelID body rest (createBotPost w tr channelID (body item) "custom_git_pr").1

/-- Message composed for one RSS2 item (lines 146-149). -/
def rssPostBody (w : World) (newRssFeed : RSSV2) (item : RssItem) : String :=
  if w.config.ShowDescription then
    newRssFeed.Channel.Title ++ "\n" ++ item.Title ++ "\n" ++ item.Link ++ "\n"
      ++ w.html2md item.Description ++ "\n"
  else newRssFeed.Channel.Title ++ "\n" ++ item.Title ++ "\n" ++ item.Link ++ "\n"

/-- Message composed for one Atom item (lines 200-209). -/
def atomPostBody (newFeed : Feed) (item : Item) : String :=
  newFeed.Title ++ "\n" ++ item.Title ++ "\n"
    ++ "Tags: " ++ ", ".intercalate item.Categories ++ "\n" ++ item.Link ++ "\n"

/-- The function `processRSSV2Subscription`. -/
def processRSSV2Subscription (w : World) (tr : List Event) (subscription : Subscription) :
    Run :=
  match w.rssParseURL subscription.URL with
  | .error err => ⟨.returned (some err), subscription, tr ++ [.parseURL .rss2 subscription.URL]⟩
  | .ok (newRssFeed, newRssFeedString) =>
    match w.rssParseString subscription.XML with
    | .error err =>
      ⟨.returned (some err), subscription,
        tr ++ [.parseURL .rss2 subscription.URL, .parseString .rss2 subscription.XML]⟩
    | .ok oldRssFeed =>
      if (w.rssCompare oldRssFeed newRssFeed).length > 0 then
        ⟨.returned none, { subscription with XML := newRssFeedString },
          postLoop w subscription.ChannelID (rssPostBody w newRssFeed)
              (w.rssCompare oldRssFeed newRssFeed)
              (tr ++ [.parseURL .rss2 subscription.URL, .parseString .rss2 subscription.XML])
            ++ [.updateSubscription { subscription with XML := newRssFeedString }]⟩
      else
        ⟨.returned none, subscription,
          postLoop w subscription.ChannelID (rssPostBody w newRssFeed)
            (w.rssCompare oldRssFeed newRssFeed)
            (tr ++ [.parseURL .rss2 subscription.URL, .parseString .rss2 subscription.XML])⟩

/-- The function `processAtomSubscription`. Both parse errors are discarded
(`newFeed, _ :=`, `oldFeed, _ :=`), so a failed parse leaves a nil feed pointer. -/
def processAtomSubscription (w : World) (tr : List Event) (subscription : Subscription) :
    Run :=
  match (w.gofeedParseURL subscription.URL).toOption,
      compareItemsPtr (w.gofeedParseString subscription.XML).toOption
        (w.gofeedParseURL subscription.URL).toOption with
  | some newFeed, some items =>
    if items.length > 0 then
      ⟨.returned none, { subscription with XML := w.newFeedString },
        postLoop w subscription.ChannelID (atomPostBody newFeed) items
            (tr ++ [.parseURL .atom subscription.URL, .parseString .atom subscription.XML])
          ++ [.updateSubscription { subscription with XML := w.newFeedString }]⟩
    else
      ⟨.returned none, subscription,
        postLoop w subscription.ChannelID (atomPostBody newFeed) items
          (tr ++ [.parseURL .atom subscription.URL, .parseString .atom subscription.XML])⟩
  | _, _ =>
    ⟨.panicked, subscription,
      tr ++ [.parseURL .atom subscription.URL, .parseString .atom subscription.XML]⟩

/-- The function `processSubscription`. -/
def processSubscription (w : World) (tr : List Event) (subscription : Subscription) : Run :=
  if subscription.URL.length = 0 then
    ⟨.returned (some "no url supplied"), subscription, tr⟩
  else if w.rssIsValidFeed subscription.URL then
    match processRSSV2Subscription w (tr ++ [.isValidFeed .rss2 subscription.URL])
        subscription with
    | ⟨.returned (some err), s, t⟩ =>
      ⟨.returned (some ("invalid RSS v2 feed format - " ++ err)), s, t⟩
    | r => r
  else if w.atomIsValidFeed subscription.URL then
    match processAtomSubscription w
        (tr ++ [.isValidFeed .rss2 subscription.URL, .isValidFeed .atom subscription.URL])
        subscription with
    | ⟨.returned (some err), s, t⟩ =>
      ⟨.returned (some ("invalid atom feed format - " ++ err)), s, t⟩
    | r => r
  else
    ⟨.returned (some "invalid feed format"), subscription,
      tr ++ [.isValidFeed .rss2 subscription.URL, .isValidFeed .atom subscription.URL]⟩

/-! ## Scheduling loop (`plugin.go`, lines 56-88) -/

/-- The loop of `processHeartBeat` over the subscriptions, in iteration order: a
returned error is logged and the loop goes on; a panic ends it. -/
def subscriptionLoop (w : World) : List Subscription → List Event → Outcome × List Event
  | [], tr => (.returned none, tr)
  | value :: rest, tr =>
    match processSubscription w tr value with
    | ⟨.panicked, _, t⟩ => (.panicked, t)
    | ⟨.returned (some err), _, t⟩ => subscriptionLoop w rest (t ++ [.logError err])
    | ⟨.returned none, _, t⟩ => subscriptionLoop w rest t

/-- The function `processHeartBeat`. -/
def processHeartBeat (w : World) (tr : List Event) : Outcome × List Event :=
  match w.getSubscriptions with
  | .error err => (.returned (some err), tr ++ [.getSubscriptions])
  | .ok dictionaryOfSubscriptions =>
    subscriptionLoop w dictionaryOfSubscriptions (tr ++ [.getSubscriptions])

/-- The value `time.Duration(heartbeatTime) * time.Minute`: nanoseconds in a signed
64-bit integer, the product wrapping around. -/
def sleepDuration (heartbeatTime : Int) : Int :=
  (heartbeatTime * 60000000000 + 2 ^ 63) % 2 ^ 64 - 2 ^ 63

/-- How far the scheduling loop got. -/
inductive LoopStatus
  | stopped
  | running
  | panicked
deriving DecidableEq, Repr

/-- State of the scheduling loop after some cycles. -/
structure LoopRun where
  status : LoopStatus
  cycles : Nat
  trace : List Event
deriving DecidableEq, Repr

/-- The loop `for p.processHeartBeatFlag` of `setupHeartBeat`, run for at most `fuel`
cycles from cycle number `cycle`: `flag i` is the flag as tested before cycle `i`,
`world i` the collaborators and configuration as they stand during cycle `i`. The
status `running` means that the loop is still going after `fuel` cycles. -/
def heartbeatLoop (heartbeatTime : Int) (flag : Nat → Bool) (world : Nat → World) :
    Nat → Nat → List Event → LoopRun
  | 0, cycle, tr => ⟨.running, cycle, tr⟩
  | fuel + 1, cycle, tr =>
    if flag cycle then
      match processHeartBeat (world cycle) tr with
      | (.panicked, t) => ⟨.panicked, cycle, t⟩
      | (.returned (some err), t) =>
        heartbeatLoop heartbeatTime flag world fuel (cycle + 1)
          (t ++ [.logError err, .sleep (sleepDuration heartbeatTime)])
      | (.returned none, t) =>
        heartbeatLoop heartbeatTime flag world fuel (cycle + 1)
          (t ++ [.sleep (sleepDuration heartbeatTime)])
    else ⟨.stopped, cycle, tr⟩

/-- The function `setupHeartBeat`: `start` is the configuration when the function is
entered, before the first cycle. -/
def setupHeartBeat (start : configuration) (flag : Nat → Bool) (world : Nat → World)
    (fuel : Nat) : LoopRun :=
  match getHeartbeatTime start with
  | (heartbeatTime, some err) =>
    heartbeatLoop heartbeatTime flag world fuel 0 [.logNumError err]
  | (heartbeatTime, none) => heartbeatLoop heartbeatTime flag world fuel 0 []

/-! ## Reference differ and sample collaborators -/

/-- The differ contract on `rssv2parser` feeds: the items of the new feed whose GUID
is the GUID of no item of the old feed, in the order of the new feed. -/
def rssGuidDiff (feedOld feedNew : RSSV2) : List RssItem :=
  feedNew.Channel.ItemList.filter
    (fun item1 => !feedOld.Channel.ItemList.any (fun item2 => item1.GUID == item2.GUID))

/-- Collaborators that are all down: no validator accepts, every fetch and parse
fails, every post succeeds, the store holds no subscription. -/
def downWorld : World :=
  { config := ⟨"", false⟩
    botUserID := "rssfeedbot"
    newFeedString := ""
    rssIsValidFeed := fun _ => false
    atomIsValidFeed := fun _ => false
    rssParseURL := fun _ => .error "Get: connection refused"
    rssParseString := fun _ => .error "EOF"
    rssCompare := rssGuidDiff
    gofeedParseURL := fun _ => .error "Get: connection refused"
    gofeedParseString := fun _ => .error "Failed to detect feed type"
    html2md := fun s => s
    createPost := fun _ _ => none
    getSubscriptions := .ok [] }

/-- Two RSS2 items. -/
def rssItemA : RssItem := ⟨"A", "http://news/a", "<b>hi</b>", "guid-a"⟩

/-- The second RSS2 item. -/
def rssItemB : RssItem := ⟨"B", "http://news/b", "", "guid-b"⟩

/-- An RSS2 world: the remote feed holds A and B, the empty stored snapshot parses
to a feed without items, and the post for item A fails. -/
def rssWorld : World :=
  { downWorld with
    rssIsValidFeed := fun _ => true
    rssParseURL := fun _ => .ok (⟨⟨"News", [rssItemA, rssItemB]⟩⟩, "<rss>A B</rss>")
    rssParseString := fun xml =>
      if xml = "<rss>A B</rss>" then .ok ⟨⟨"News", [rssItemA, rssItemB]⟩⟩
      else .ok ⟨⟨"", []⟩⟩
    createPost := fun _ post =>
      if post.Message = "News\nA\nhttp://news/a\n" then some "channel archived" else none }

/-- An Atom entry. -/
def atomItemA : Item := ⟨"A", "http://blog/a", "", "tag:blog,a", ["go", "rss"]⟩

/-- An Atom world: only the Atom validator accepts, the remote feed holds the entry
A, the document `<feed/>` parses to a feed without entries and nothing else parses;
`v` is the value of `newFeedString`. -/
def atomWorld (v : String) : World :=
  { downWorld with
    newFeedString := v
    atomIsValidFeed := fun _ => true
    gofeedParseURL := fun _ => .ok ⟨"Blog", [atomItemA]⟩
    gofeedParseString := fun xml =>
      if xml = "<feed/>" then .ok ⟨"Blog", []⟩ else .error "Failed to detect feed type" }

/-- An Atom world in which the fetch fails: the Atom validator accepts the URL and
`gofeed` then cannot reach it. -/
def atomFetchDownWorld : World :=
  { downWorld with
    atomIsValidFeed := fun _ => true
    gofeedParseString := fun _ => .ok ⟨"Blog", [atomItemA]⟩ }

/-- A schedule in which the configured Heartbeat is `1` during cycle 0 and `2` from
cycle 1 on. -/
def changingWorld (cycle : Nat) : World :=
  { downWorld with config := if cycle = 0 then ⟨"1", false⟩ else ⟨"2", false⟩ }

/-! ## Differ lemmas -/

theorem existsLoop_eq_true_iff (guid : String) (oldItems : List Item) :
    existsLoop guid oldItems = true ↔ ∃ item2 ∈ oldItems, guid = item2.GUID := by
  induction oldItems with
  | nil => simp [existsLoop]
  | cons o rest ih =>
    unfold existsLoop
    by_cases h : guid = o.GUID
    · simp [h]
    · simp [h, ih]

theorem existsLoop_eq_any (guid : String) (oldItems : List Item) :
    existsLoop guid oldItems = oldItems.any (fun item2 => decide (guid = item2.GUID)) := by
  induction oldItems with
  | nil => simp [existsLoop]
  | cons o rest ih =>
    unfold existsLoop
    by_cases h : guid = o.GUID
    · simp [h]
    · simp [h, ih]

theorem compareLoop_eq_append_filter (oldItems newItems itemList : List Item) :
    compareLoop oldItems newItems itemList
      = itemList ++ newItems.filter (fun item1 => !existsLoop item1.GUID oldItems) := by
  induction newItems generalizing itemList with
  | nil => simp [compareLoop]
  | cons n rest ih =>
    unfold compareLoop
    by_cases h : existsLoop n.GUID oldItems = true
    · simp [h, ih]
    · simp [h, ih]

theorem compare_eq_filter (feedOld feedNew : Feed) :
    CompareItemsBetweenOldAndNew feedOld feedNew
      = feedNew.Items.filter (fun item1 => !existsLoop item1.GUID feedOld.Items) := by
  simp [CompareItemsBetweenOldAndNew, compareLoop_eq_append_filter]

theorem existsLoop_perm (guid : String) {l₁ l₂ : List Item} (h : l₁.Perm l₂) :
    existsLoop guid l₁ = existsLoop guid l₂ := by
  rw [Bool.eq_iff_iff, existsLoop_eq_true_iff, existsLoop_eq_true_iff]
  constructor
  · rintro ⟨i, hi, e⟩
    exact ⟨i, h.mem_iff.mp hi, e⟩
  · rintro ⟨i, hi, e⟩
    exact ⟨i, h.mem_iff.mpr hi, e⟩

/-! ## Differ: claims -/

/-- C1: `CompareItemsBetweenOldAndNew previous current` is the sublist of
`current.Items`, in the same order, of the items whose GUID equals the GUID of no
item of `previous.Items` (the filter of `current.Items` by "GUID not among the
previous GUIDs"); hence it is the same for every reordering of `previous.Items`. -/
theorem C1_compare_is_filter (previous current : Feed) :
    CompareItemsBetweenOldAndNew previous current
        = current.Items.filter
            (fun item1 => decide (∀ item2 ∈ previous.Items, item1.GUID ≠ item2.GUID))
      ∧ (CompareItemsBetweenOldAndNew previous current).Sublist current.Items
      ∧ (∀ item1, item1 ∈ CompareItemsBetweenOldAndNew previous current ↔
            item1 ∈ current.Items ∧ ∀ item2 ∈ previous.Items, item1.GUID ≠ item2.GUID)
      ∧ (∀ previous2 : Feed, previous2.Items.Perm previous.Items →
            CompareItemsBetweenOldAndNew previous2 current
              = CompareItemsBetweenOldAndNew previous current) := by
  have hfilter : CompareItemsBetweenOldAndNew previous current
        = current.Items.filter
            (fun item1 => decide (∀ item2 ∈ previous.Items, item1.GUID ≠ item2.GUID)) := by
    rw [compare_eq_filter]
    apply List.filter_congr
    intro x _
    rw [Bool.eq_iff_iff]
    simp only [Bool.not_eq_true', decide_eq_true_eq]
    rw [← Bool.not_eq_true, existsLoop_eq_true_iff]
    simp
  refine ⟨hfilter, ?_, ?_, ?_⟩
  · rw [hfilter]
    exact List.filter_sublist _
  · intro item1
    rw [hfilter]
    simp [List.mem_filter]
  · intro previous2 hperm
    rw [compare_eq_filter, compare_eq_filter]
    apply List.filter_congr
    intro x _
    rw [existsLoop_perm x.GUID hperm]

/-- C1 instance: two orderings of the same previous items give the same result. -/
theorem C1_compare_is_filter_witness :
    ([⟨"a", "", "", "1", []⟩, ⟨"b", "", "", "2", []⟩] : List Item).Perm
        [⟨"b", "", "", "2", []⟩, ⟨"a", "", "", "1", []⟩]
      ∧ CompareItemsBetweenOldAndNew
          ⟨"t", [⟨"a", "", "", "1", []⟩, ⟨"b", "", "", "2", []⟩]⟩
          ⟨"t", [⟨"c", "", "", "3", []⟩, ⟨"a", "", "", "1", []⟩]⟩
        = CompareItemsBetweenOldAndNew
          ⟨"t", [⟨"b", "", "", "2", []⟩, ⟨"a", "", "", "1", []⟩]⟩
          ⟨"t", [⟨"c", "", "", "3", []⟩, ⟨"a", "", "", "1", []⟩]⟩ :=
  ⟨List.Perm.swap _ _ _,
   (C1_compare_is_filter
      ⟨"t", [⟨"b", "", "", "2", []⟩, ⟨"a", "", "", "1", []⟩]⟩
      ⟨"t", [⟨"c", "", "", "3", []⟩, ⟨"a", "", "", "1", []⟩]⟩).2.2.2
      ⟨"t", [⟨"a", "", "", "1", []⟩, ⟨"b", "", "", "2", []⟩]⟩ (List.Perm.swap _ _ _)⟩

/-- C4: when the GUID of every item of `new.Items` is the GUID of some item of
`old.Items`, the differ returns the empty list; in particular the diff of a feed
against itself is empty. -/
theorem C4_compare_subset_empty (old new : Feed) :
    ((∀ item1 ∈ new.Items, ∃ item2 ∈ old.Items, item1.GUID = item2.GUID) →
        CompareItemsBetweenOldAndNew old new = [])
      ∧ CompareItemsBetweenOldAndNew old old = [] := by
  have key : ∀ o n : Feed, (∀ item1 ∈ n.Items, ∃ item2 ∈ o.Items, item1.GUID = item2.GUID) →
      CompareItemsBetweenOldAndNew o n = [] := by
    intro o n h
    rw [compare_eq_filter, List.filter_eq_nil_iff]
    intro a ha
    have := (existsLoop_eq_true_iff a.GUID o.Items).mpr (h a ha)
    simp [this]
  exact ⟨key old new, key old old (fun item1 h1 => ⟨item1, h1, rfl⟩)⟩

/-- C4 instance: a current feed whose GUIDs all occur in the previous feed. -/
theorem C4_compare_subset_empty_witness :
    (∀ item1 ∈ (⟨"t", [⟨"a2", "", "", "1", []⟩]⟩ : Feed).Items,
        ∃ item2 ∈ (⟨"t", [⟨"b", "", "", "2", []⟩, ⟨"a", "", "", "1", []⟩]⟩ : Feed).Items,
          item1.GUID = item2.GUID)
      ∧ CompareItemsBetweenOldAndNew
          ⟨"t", [⟨"b", "", "", "2", []⟩, ⟨"a", "", "", "1", []⟩]⟩
          ⟨"t", [⟨"a2", "", "", "1", []⟩]⟩ = [] :=
  ⟨by decide,
   (C4_compare_subset_empty
      ⟨"t", [⟨"b", "", "", "2", []⟩, ⟨"a", "", "", "1", []⟩]⟩
      ⟨"t", [⟨"a2", "", "", "1", []⟩]⟩).1 (by decide)⟩

/-! ## Heartbeat interval: lemmas -/

theorem length_pos_of_ne_empty (s : String) (h : s ≠ "") : s.length > 0 := by
  rcases s with ⟨cs⟩
  cases cs with
  | nil => exact absurd rfl h
  | cons c rest => simp [String.length]

theorem parseUintLoop_digits (ds : List Char) (n : Nat) (hn : n ≤ 2 ^ 64 - 1)
    (hall : ds.all Char.isDigit = true) :
    parseUintLoop ds n
      = if n * 10 ^ ds.length + digitsNat ds ≤ 2 ^ 64 - 1
          then .ok (n * 10 ^ ds.length + digitsNat ds)
        else .error .outOfRange := by
  induction ds generalizing n with
  | nil =>
    norm_num at hn
    simp [parseUintLoop, digitsNat, hn]
  | cons c rest ih =>
    rw [List.all_cons, Bool.and_eq_true] at hall
    obtain ⟨hc, hrest⟩ := hall
    have hP : 1 ≤ 10 ^ rest.length := Nat.one_le_pow _ _ (by decide)
    have hkey : n * 10 ^ (c :: rest).length + digitsNat (c :: rest)
        = (n * 10 + (c.toNat - 48)) * 10 ^ rest.length + digitsNat rest := by
      simp only [List.length_cons, digitsNat, pow_succ]
      ring
    have hmono : n * 10 + (c.toNat - 48) ≤ (n * 10 + (c.toNat - 48)) * 10 ^ rest.length :=
      Nat.le_mul_of_pos_right _ hP
    rw [hkey]
    unfold parseUintLoop
    simp only [hc, if_true]
    norm_num at hn ⊢
    by_cases h1 : 1844674407370955162 ≤ n
    · have h2 : ¬ (n * 10 + (c.toNat - 48)) * 10 ^ rest.length + digitsNat rest
          ≤ 18446744073709551615 := by omega
      simp [h1, h2]
    · by_cases h3 : 18446744073709551615 < n * 10 + (c.toNat - 48)
      · have h2 : ¬ (n * 10 + (c.toNat - 48)) * 10 ^ rest.length + digitsNat rest
            ≤ 18446744073709551615 := by omega
        simp [h1, h3, h2]
      · have h4 : n * 10 + (c.toNat - 48) ≤ 2 ^ 64 - 1 := by
          norm_num
          omega
        rw [if_neg h1, if_neg h3, ih _ h4 hrest]
        norm_num

theorem parseUintLoop_not_digits (ds : List Char) (n : Nat)
    (hall : ds.all Char.isDigit = false) : ∃ e, parseUintLoop ds n = .error e := by
  induction ds generalizing n with
  | nil => simp at hall
  | cons c rest ih =>
    unfold parseUintLoop
    by_cases hc : c.isDigit = true
    · have hrest : rest.all Char.isDigit = false := by
        simpa [List.all_cons, hc] using hall
      simp only [hc, if_true]
      split
      · exact ⟨_, rfl⟩
      · split
        · exact ⟨_, rfl⟩
        · exact ih _ hrest
    · simp [hc]

theorem numeral_minus (s : String) (rest : List Char) (h : s.toList = '-' :: rest) :
    numeralDigits s = rest ∧ numeralValue s = -(digitsNat rest : Int) := by
  have h2 : s.data = '-' :: rest := h
  simp [numeralDigits, numeralValue, h2]

theorem numeral_plus (s : String) (rest : List Char) (h : s.toList = '+' :: rest) :
    numeralDigits s = rest ∧ numeralValue s = (digitsNat rest : Int) := by
  have h2 : s.data = '+' :: rest := h
  simp [numeralDigits, numeralValue, h2]

theorem numeral_unsigned (s : String)
    (hminus : ∀ rest : List Char, s.toList = '-' :: rest → False)
    (hplus : ∀ rest : List Char, s.toList = '+' :: rest → False) :
    numeralDigits s = s.toList ∧ numeralValue s = (digitsNat s.toList : Int) := by
  have hd : numeralDigits s = s.toList := by
    unfold numeralDigits
    split
    · rename_i r heq
      exact absurd heq (fun h => hminus r h)
    · rename_i r heq
      exact absurd heq (fun h => hplus r h)
    · rfl
  refine ⟨hd, ?_⟩
  unfold numeralValue
  split
  · rename_i r heq
    exact absurd heq (fun h => hminus r h)
  · rw [hd]

/-- `Atoi` on a decimal numeral: the integer it denotes when that lies in the signed
64-bit range, a range error otherwise. -/
theorem Atoi_numeral (s : String) (h : isNumeral s = true) :
    Atoi s = if -(2 ^ 63 : Int) ≤ numeralValue s ∧ numeralValue s ≤ 2 ^ 63 - 1
      then .ok (numeralValue s) else .error ⟨"Atoi", s, .outOfRange⟩ := by
  unfold isNumeral at h
  rw [Bool.and_eq_true] at h
  obtain ⟨hne, hall⟩ := h
  unfold Atoi
  split
  · rename_i heq
    have := numeral_unsigned s (fun r hr => by rw [heq] at hr; cases hr)
      (fun r hr => by rw [heq] at hr; cases hr)
    rw [this.1, heq] at hne
    simp at hne
  · rename_i rest heq
    obtain ⟨hd, hv⟩ := numeral_minus s rest heq
    rw [hd] at hne hall
    have hrest : rest ≠ [] := by
      intro he
      simp [he] at hne
    rw [if_neg hrest, parseUintLoop_digits rest 0 (by norm_num) hall, hv]
    simp only [Nat.zero_mul, Nat.zero_add]
    norm_num
    by_cases h1 : digitsNat rest ≤ 18446744073709551615
    · rw [if_pos h1]
      simp only
      by_cases h2 : 9223372036854775808 < digitsNat rest
      · rw [if_pos h2, if_neg (by omega)]
      · rw [if_neg h2, if_pos (by omega)]
    · rw [if_neg h1]
      simp only
      rw [if_neg (by omega)]
  · rename_i rest heq
    obtain ⟨hd, hv⟩ := numeral_plus s rest heq
    rw [hd] at hne hall
    have hrest : rest ≠ [] := by
      intro he
      simp [he] at hne
    rw [if_neg hrest, parseUintLoop_digits rest 0 (by norm_num) hall, hv]
    simp only [Nat.zero_mul, Nat.zero_add]
    norm_num
    by_cases h1 : digitsNat rest ≤ 18446744073709551615
    · rw [if_pos h1]
      simp only
      by_cases h2 : 9223372036854775808 ≤ digitsNat rest
      · rw [if_pos h2, if_neg (by omega)]
      · rw [if_neg h2, if_pos (by omega)]
    · rw [if_neg h1]
      simp only
      rw [if_neg (by omega)]
  · rename_i hnil hminus hplus
    obtain ⟨hd, hv⟩ := numeral_unsigned s hminus hplus
    rw [hd] at hall
    rw [parseUintLoop_digits s.toList 0 (by norm_num) hall, hv]
    simp only [Nat.zero_mul, Nat.zero_add]
    generalize digitsNat s.toList = v
    norm_num
    by_cases h1 : v ≤ 18446744073709551615
    · rw [if_pos h1]
      simp only
      by_cases h2 : 9223372036854775808 ≤ v
      · rw [if_pos h2, if_neg (by omega)]
      · rw [if_neg h2, if_pos (by omega)]
    · rw [if_neg h1]
      simp only
      rw [if_neg (by omega)]

/-- `Atoi` on a non-empty string that is not a decimal numeral: an error. -/
theorem Atoi_not_numeral (s : String) (h : isNumeral s = false) :
    ∃ e, Atoi s = .error ⟨"Atoi", s, e⟩ := by
  unfold isNumeral at h
  unfold Atoi
  split
  · exact ⟨_, rfl⟩
  · rename_i rest heq
    obtain ⟨hd, _⟩ := numeral_minus s rest heq
    rw [hd] at h
    by_cases hrest : rest = []
    · rw [if_pos hrest]
      exact ⟨_, rfl⟩
    · rw [if_neg hrest]
      have hall : rest.all Char.isDigit = false := by
        cases rest with
        | nil => exact absurd rfl hrest
        | cons c r => simpa using h
      obtain ⟨e, he⟩ := parseUintLoop_not_digits rest 0 hall
      rw [he]
      exact ⟨_, rfl⟩
  · rename_i rest heq
    obtain ⟨hd, _⟩ := numeral_plus s rest heq
    rw [hd] at h
    by_cases hrest : rest = []
    · rw [if_pos hrest]
      exact ⟨_, rfl⟩
    · rw [if_neg hrest]
      have hall : rest.all Char.isDigit = false := by
        cases rest with
        | nil => exact absurd rfl hrest
        | cons c r => simpa using h
      obtain ⟨e, he⟩ := parseUintLoop_not_digits rest 0 hall
      rw [he]
      exact ⟨_, rfl⟩
  · rename_i hnil hminus hplus
    obtain ⟨hd, _⟩ := numeral_unsigned s hminus hplus
    rw [hd] at h
    have hall : s.toList.all Char.isDigit = false := by
      cases hl : s.toList with
      | nil => exact absurd hl hnil
      | cons c r =>
        rw [hl] at h
        simpa using h
    obtain ⟨e, he⟩ := parseUintLoop_not_digits s.toList 0 hall
    rw [he]
    exact ⟨_, rfl⟩

theorem isNumeral_ne_empty (s : String) (h : isNumeral s = true) : s ≠ "" := by
  intro he
  rw [he] at h
  exact absurd h (by decide)

theorem getHeartbeatTime_empty (config : configuration) (h : config.Heartbeat = "") :
    getHeartbeatTime config = (15, none) := by
  simp [getHeartbeatTime, h]

theorem getHeartbeatTime_not_numeral (config : configuration)
    (hne : config.Heartbeat ≠ "") (h : isNumeral config.Heartbeat = false) :
    ∃ e, getHeartbeatTime config = (15, some ⟨"Atoi", config.Heartbeat, e⟩) := by
  have hlen := length_pos_of_ne_empty _ hne
  obtain ⟨e, he⟩ := Atoi_not_numeral _ h
  exact ⟨e, by simp [getHeartbeatTime, hlen, he]⟩

theorem getHeartbeatTime_out_of_range (config : configuration)
    (h : isNumeral config.Heartbeat = true)
    (hr : numeralValue config.Heartbeat < -(2 ^ 63 : Int)
      ∨ 2 ^ 63 - 1 < numeralValue config.Heartbeat) :
    getHeartbeatTime config = (15, some ⟨"Atoi", config.Heartbeat, .outOfRange⟩) := by
  have hlen := length_pos_of_ne_empty _ (isNumeral_ne_empty _ h)
  have hA := Atoi_numeral _ h
  rw [if_neg (by omega)] at hA
  simp [getHeartbeatTime, hlen, hA]

theorem getHeartbeatTime_in_range (config : configuration)
    (h : isNumeral config.Heartbeat = true)
    (hlo : -(2 ^ 63 : Int) ≤ numeralValue config.Heartbeat)
    (hhi : numeralValue config.Heartbeat ≤ 2 ^ 63 - 1) :
    getHeartbeatTime config = (numeralValue config.Heartbeat, none) := by
  have hlen := length_pos_of_ne_empty _ (isNumeral_ne_empty _ h)
  have hA := Atoi_numeral _ h
  rw [if_pos ⟨hlo, hhi⟩] at hA
  simp [getHeartbeatTime, hlen, hA]

theorem sleepDuration_exact (heartbeatTime : Int)
    (hlo : -maxWholeMinutes ≤ heartbeatTime) (hhi : heartbeatTime ≤ maxWholeMinutes) :
    sleepDuration heartbeatTime = heartbeatTime * 60000000000 := by
  unfold maxWholeMinutes at hlo hhi
  unfold sleepDuration
  norm_num at hlo hhi ⊢
  omega
/-! ## Traces: lemmas -/

theorem postsOf_append (a b : List Event) : postsOf (a ++ b) = postsOf a ++ postsOf b := by
  induction a with
  | nil => rfl
  | cons e rest ih => cases e <;> simp [postsOf, ih]

theorem updatesOf_append (a b : List Event) :
    updatesOf (a ++ b) = updatesOf a ++ updatesOf b := by
  induction a with
  | nil => rfl
  | cons e rest ih => cases e <;> simp [updatesOf, ih]

theorem sleepsOf_append (a b : List Event) : sleepsOf (a ++ b) = sleepsOf a ++ sleepsOf b := by
  induction a with
  | nil => rfl
  | cons e rest ih => cases e <;> simp [sleepsOf, ih]

theorem createBotPost_posts (w : World) (tr : List Event) (c m t : String) :
    postsOf (createBotPost w tr c m t).1 = postsOf tr ++ [botPost w c m t] := by
  unfold createBotPost
  cases w.createPost tr (botPost w c m t) <;> simp [postsOf_append, postsOf]

theorem createBotPost_updates (w : World) (tr : List Event) (c m t : String) :
    updatesOf (createBotPost w tr c m t).1 = updatesOf tr := by
  unfold createBotPost
  cases w.createPost tr (botPost w c m t) <;> simp [updatesOf_append, updatesOf]

theorem createBotPost_sleeps (w : World) (tr : List Event) (c m t : String) :
    sleepsOf (createBotPost w tr c m t).1 = sleepsOf tr := by
  unfold createBotPost
  cases w.createPost tr (botPost w c m t) <;> simp [sleepsOf_append, sleepsOf]

theorem postLoop_posts {α : Type} (w : World) (c : String) (body : α → String)
    (items : List α) (tr : List Event) :
    postsOf (postLoop w c body items tr)
      = postsOf tr ++ items.map (fun item => botPost w c (body item) "custom_git_pr") := by
  induction items generalizing tr with
  | nil => simp [postLoop]
  | cons item rest ih => simp [postLoop, ih, createBotPost_posts]

theorem postLoop_updates {α : Type} (w : World) (c : String) (body : α → String)
    (items : List α) (tr : List Event) :
    updatesOf (postLoop w c body items tr) = updatesOf tr := by
  induction items generalizing tr with
  | nil => simp [postLoop]
  | cons item rest ih => simp [postLoop, ih, createBotPost_updates]

theorem postLoop_sleeps {α : Type} (w : World) (c : String) (body : α → String)
    (items : List α) (tr : List Event) :
    sleepsOf (postLoop w c body items tr) = sleepsOf tr := by
  induction items generalizing tr with
  | nil => simp [postLoop]
  | cons item rest ih => simp [postLoop, ih, createBotPost_sleeps]

/-! ## Pipeline: claims -/

/-- C5: for a subscription whose URL is the empty string, `processSubscription`
returns the error `no url supplied`; the trace is unchanged (no validator, parser,
post or store call is made) and so is the subscription. -/
theorem C5_empty_url (w : World) (tr : List Event) (subscription : Subscription)
    (h : subscription.URL = "") :
    processSubscription w tr subscription
      = ⟨.returned (some "no url supplied"), subscription, tr⟩ := by
  simp [processSubscription, h]

/-- C5 instance: a subscription without URL, in a world where every format is
accepted. -/
theorem C5_empty_url_witness :
    (⟨"", "town-square", "<rss/>"⟩ : Subscription).URL = ""
      ∧ processSubscription rssWorld [] ⟨"", "town-square", "<rss/>"⟩
        = ⟨.returned (some "no url supplied"), ⟨"", "town-square", "<rss/>"⟩, []⟩ :=
  ⟨rfl, C5_empty_url rssWorld [] ⟨"", "town-square", "<rss/>"⟩ rfl⟩

/-- C6: for a subscription with a non-empty URL that neither validator accepts,
`processSubscription` returns the error `invalid feed format`; the only calls made
are the two validator calls (so neither format path runs, nothing is posted and
nothing is stored), and the subscription is unchanged. -/
theorem C6_unknown_format (w : World) (tr : List Event) (subscription : Subscription)
    (hurl : subscription.URL ≠ "")
    (hrss : w.rssIsValidFeed subscription.URL = false)
    (hatom : w.atomIsValidFeed subscription.URL = false) :
    processSubscription w tr subscription
      = ⟨.returned (some "invalid feed format"), subscription,
          tr ++ [.isValidFeed .rss2 subscription.URL, .isValidFeed .atom subscription.URL]⟩ := by
  have hlen := length_pos_of_ne_empty _ hurl
  have hne : subscription.URL.length ≠ 0 := by omega
  simp [processSubscription, hne, hrss, hatom]

/-- C6 instance: a URL that no validator accepts. -/
theorem C6_unknown_format_witness :
    (⟨"http://x/page.html", "town-square", "old"⟩ : Subscription).URL ≠ ""
      ∧ processSubscription downWorld [] ⟨"http://x/page.html", "town-square", "old"⟩
        = ⟨.returned (some "invalid feed format"), ⟨"http://x/page.html", "town-square", "old"⟩,
            [.isValidFeed .rss2 "http://x/page.html", .isValidFeed .atom "http://x/page.html"]⟩ :=
  ⟨by decide, C6_unknown_format downWorld [] ⟨"http://x/page.html", "town-square", "old"⟩
    (by decide) rfl rfl⟩

/-- C3: in an RSS2 run whose fetch and reparse succeed, one post is attempted per
new item, in new-item order, whatever each `CreatePost` call answers; when there is
a new item the subscription's XML becomes the fetched raw snapshot and the run ends
with one store update of that subscription; when there is none, nothing is posted,
nothing is stored and the subscription is unchanged. -/
theorem C3_rss2_posts_then_commit (w : World) (tr : List Event) (subscription : Subscription)
    (newRssFeed oldRssFeed : RSSV2) (raw : String)
    (hfetch : w.rssParseURL subscription.URL = .ok (newRssFeed, raw))
    (hold : w.rssParseString subscription.XML = .ok oldRssFeed) :
    (processRSSV2Subscription w tr subscription).outcome = .returned none
      ∧ postsOf (processRSSV2Subscription w tr subscription).trace
          = postsOf tr ++ (w.rssCompare oldRssFeed newRssFeed).map
              (fun item => botPost w subscription.ChannelID (rssPostBody w newRssFeed item)
                "custom_git_pr")
      ∧ (w.rssCompare oldRssFeed newRssFeed ≠ [] →
          (processRSSV2Subscription w tr subscription).subscription
              = { subscription with XML := raw }
            ∧ updatesOf (processRSSV2Subscription w tr subscription).trace
              = updatesOf tr ++ [{ subscription with XML := raw }]
            ∧ (processRSSV2Subscription w tr subscription).trace.getLast?
              = some (.updateSubscription { subscription with XML := raw }))
      ∧ (w.rssCompare oldRssFeed newRssFeed = [] →
          processRSSV2Subscription w tr subscription
            = ⟨.returned none, subscription,
                tr ++ [.parseURL .rss2 subscription.URL, .parseString .rss2 subscription.XML]⟩) := by
  cases hitems : w.rssCompare oldRssFeed newRssFeed with
  | nil =>
    simp [processRSSV2Subscription, hfetch, hold, hitems, postLoop, postsOf_append, postsOf]
  | cons item rest =>
    simp [processRSSV2Subscription, hfetch, hold, hitems, postsOf_append, updatesOf_append,
      postLoop_posts, postLoop_updates, postsOf, updatesOf]

/-- C3 instance: the post for item A fails, the post for item B is still attempted
and the snapshot is committed. -/
theorem C3_rss2_posts_then_commit_witness :
    postsOf (processRSSV2Subscription rssWorld [] ⟨"http://news/rss", "town-square", ""⟩).trace
        = [⟨"rssfeedbot", "town-square", "News\nA\nhttp://news/a\n", "custom_git_pr"⟩,
           ⟨"rssfeedbot", "town-square", "News\nB\nhttp://news/b\n", "custom_git_pr"⟩]
      ∧ rssWorld.createPost
          [.parseURL .rss2 "http://news/rss", .parseString .rss2 ""]
          ⟨"rssfeedbot", "town-square", "News\nA\nhttp://news/a\n", "custom_git_pr"⟩
        = some "channel archived"
      ∧ (processRSSV2Subscription rssWorld [] ⟨"http://news/rss", "town-square", ""⟩).subscription
        = ⟨"http://news/rss", "town-square", "<rss>A B</rss>"⟩ :=
  ⟨(C3_rss2_posts_then_commit rssWorld [] ⟨"http://news/rss", "town-square", ""⟩
      ⟨⟨"News", [rssItemA, rssItemB]⟩⟩ ⟨⟨"", []⟩⟩ "<rss>A B</rss>" rfl rfl).2.1,
   by decide,
   ((C3_rss2_posts_then_commit rssWorld [] ⟨"http://news/rss", "town-square", ""⟩
      ⟨⟨"News", [rssItemA, rssItemB]⟩⟩ ⟨⟨"", []⟩⟩ "<rss>A B</rss>" rfl rfl).2.2.1
      (by decide)).1⟩

/-! ## Fetch failure -/

/-- RSS2 path: a failed fetch ends the run with the wrapped error, after the
validator call and the fetch only; the subscription is unchanged. -/
theorem rss2_fetch_failure (w : World) (tr : List Event) (subscription : Subscription)
    (err : String) (hurl : subscription.URL ≠ "")
    (hrss : w.rssIsValidFeed subscription.URL = true)
    (hfetch : w.rssParseURL subscription.URL = .error err) :
    processSubscription w tr subscription
      = ⟨.returned (some ("invalid RSS v2 feed format - " ++ err)), subscription,
          tr ++ [.isValidFeed .rss2 subscription.URL, .parseURL .rss2 subscription.URL]⟩ := by
  have hlen := length_pos_of_ne_empty _ hurl
  have hne : subscription.URL.length ≠ 0 := by omega
  simp [processSubscription, hne, hrss, processRSSV2Subscription, hfetch]

/-- Atom path: `processAtomSubscription` never returns an error. -/
theorem atom_never_returns_error (w : World) (tr : List Event) (subscription : Subscription)
    (err : String) :
    (processAtomSubscription w tr subscription).outcome ≠ .returned (some err) := by
  unfold processAtomSubscription
  split
  · split <;> simp
  · simp

/-- Atom path: a failed fetch leaves `newFeed` nil and the differ dereferences it:
the run panics, whatever the stored snapshot. -/
theorem atom_fetch_failure_panics (w : World) (tr : List Event) (subscription : Subscription)
    (err : String) (hurl : subscription.URL ≠ "")
    (hrss : w.rssIsValidFeed subscription.URL = false)
    (hatom : w.atomIsValidFeed subscription.URL = true)
    (hfetch : w.gofeedParseURL subscription.URL = .error err) :
    processSubscription w tr subscription
      = ⟨.panicked, subscription,
          tr ++ [.isValidFeed .rss2 subscription.URL, .isValidFeed .atom subscription.URL,
            .parseURL .atom subscription.URL, .parseString .atom subscription.XML]⟩ := by
  have hlen := length_pos_of_ne_empty _ hurl
  have hne : subscription.URL.length ≠ 0 := by omega
  simp [processSubscription, hne, hrss, hatom, processAtomSubscription, hfetch,
    Except.toOption, compareItemsPtr]

/-- C7 at a failing input: the Atom validator accepts the URL and the fetch then
fails; the run does not return a wrapped error, it panics on the nil feed. -/
theorem C7_atom_fetch_failure_panics :
    atomFetchDownWorld.gofeedParseURL "http://blog/atom" = .error "Get: connection refused"
      ∧ processSubscription atomFetchDownWorld [] ⟨"http://blog/atom", "town-square", "<feed/>"⟩
        = ⟨.panicked, ⟨"http://blog/atom", "town-square", "<feed/>"⟩,
            [.isValidFeed .rss2 "http://blog/atom", .isValidFeed .atom "http://blog/atom",
              .parseURL .atom "http://blog/atom", .parseString .atom "<feed/>"]⟩ :=
  ⟨rfl, by decide⟩

/-! ## Second run -/

/-- Atom path: the subscription after a run is the one before it, or that one with
XML set to `newFeedString`; the fetched feed has no part in the stored value. -/
theorem atom_commit_stores_newFeedString (w : World) (tr : List Event)
    (subscription : Subscription) :
    (processAtomSubscription w tr subscription).subscription = subscription
      ∨ (processAtomSubscription w tr subscription).subscription
        = { subscription with XML := w.newFeedString } := by
  unfold processAtomSubscription
  split
  · split <;> simp
  · simp

/-- C2 at a failing input, on the Atom path. The stored snapshot `<feed/>` has no
entry and the remote feed has the entry A in both runs. The first run posts A and
stores `newFeedString`. With `newFeedString` empty, the second run panics on the
nil old feed; with `newFeedString` a document without A, it posts A again. -/
theorem C2_atom_second_run_not_silent :
    (postsOf (processSubscription (atomWorld "") []
          ⟨"http://blog/atom", "town-square", "<feed/>"⟩).trace
        = [⟨"rssfeedbot", "town-square", "Blog\nA\nTags: go, rss\nhttp://blog/a\n",
            "custom_git_pr"⟩]
      ∧ (processSubscription (atomWorld "") []
          ⟨"http://blog/atom", "town-square", "<feed/>"⟩).subscription
        = ⟨"http://blog/atom", "town-square", ""⟩
      ∧ (processSubscription (atomWorld "") []
          ⟨"http://blog/atom", "town-square", ""⟩).outcome = .panicked)
    ∧ ((processSubscription (atomWorld "<feed/>") []
          ⟨"http://blog/atom", "town-square", "<feed/>"⟩).subscription
        = ⟨"http://blog/atom", "town-square", "<feed/>"⟩
      ∧ postsOf (processSubscription (atomWorld "<feed/>") []
          (processSubscription (atomWorld "<feed/>") []
            ⟨"http://blog/atom", "town-square", "<feed/>"⟩).subscription).trace
        = [⟨"rssfeedbot", "town-square", "Blog\nA\nTags: go, rss\nhttp://blog/a\n",
            "custom_git_pr"⟩]) := by
  decide

theorem rssGuidDiff_same_guids (g f : RSSV2)
    (h : g.Channel.ItemList.map (fun i => i.GUID) = f.Channel.ItemList.map (fun i => i.GUID)) :
    rssGuidDiff g f = [] := by
  unfold rssGuidDiff
  rw [List.filter_eq_nil_iff]
  intro a ha
  have hmem : a.GUID ∈ g.Channel.ItemList.map (fun i => i.GUID) := by
    rw [h]
    exact List.mem_map_of_mem (fun i => i.GUID) ha
  obtain ⟨b, hb, hbe⟩ := List.mem_map.mp hmem
  have hany : g.Channel.ItemList.any (fun item2 => a.GUID == item2.GUID) = true :=
    List.any_eq_true.mpr ⟨b, hb, by simp [hbe]⟩
  simp [hany]

/-- RSS2 path: when the differ obeys its contract, the remote answer and the parser
are the same in both runs, and the stored raw snapshot reparses to the GUIDs of the
feed fetched with it, a second run on the subscription left by the first posts
nothing, stores nothing and leaves the subscription as it is. -/
theorem rss2_second_run_silent (w1 w2 : World) (tr1 tr2 : List Event)
    (subscription : Subscription)
    (hremote : w2.rssParseURL subscription.URL = w1.rssParseURL subscription.URL)
    (hparser : w2.rssParseString = w1.rssParseString)
    (hdiffer1 : w1.rssCompare = rssGuidDiff) (hdiffer2 : w2.rssCompare = rssGuidDiff)
    (hreparse : ∀ f raw, w1.rssParseURL subscription.URL = .ok (f, raw) →
      ∃ g, w1.rssParseString raw = .ok g
        ∧ g.Channel.ItemList.map (fun i => i.GUID) = f.Channel.ItemList.map (fun i => i.GUID)) :
    postsOf (processRSSV2Subscription w2 tr2
          (processRSSV2Subscription w1 tr1 subscription).subscription).trace = postsOf tr2
      ∧ updatesOf (processRSSV2Subscription w2 tr2
          (processRSSV2Subscription w1 tr1 subscription).subscription).trace = updatesOf tr2
      ∧ (processRSSV2Subscription w2 tr2
          (processRSSV2Subscription w1 tr1 subscription).subscription).subscription
        = (processRSSV2Subscription w1 tr1 subscription).subscription := by
  cases hf : w1.rssParseURL subscription.URL with
  | error e =>
    simp [processRSSV2Subscription, hf, hremote, postsOf_append, updatesOf_append, postsOf,
      updatesOf]
  | ok p =>
    obtain ⟨f, raw⟩ := p
    cases ho : w1.rssParseString subscription.XML with
    | error e =>
      simp [processRSSV2Subscription, hf, hremote, hparser, ho, postsOf_append,
        updatesOf_append, postsOf, updatesOf]
    | ok old =>
      cases hitems : rssGuidDiff old f with
      | nil =>
        simp [processRSSV2Subscription, hf, hremote, hparser, ho, hdiffer1, hdiffer2, hitems,
          postLoop, postsOf_append, updatesOf_append, postsOf, updatesOf]
      | cons item rest =>
        obtain ⟨g, hg, hguids⟩ := hreparse f raw hf
        have hnil := rssGuidDiff_same_guids g f hguids
        simp [processRSSV2Subscription, hf, hremote, hparser, ho, hdiffer1, hdiffer2, hitems,
          hg, hnil, postLoop, postsOf_append, updatesOf_append, postsOf, updatesOf]

/-! ## Scheduling loop: lemmas and claims -/

theorem processRSSV2Subscription_sleeps (w : World) (tr : List Event)
    (subscription : Subscription) :
    sleepsOf (processRSSV2Subscription w tr subscription).trace = sleepsOf tr := by
  unfold processRSSV2Subscription
  split
  · simp [sleepsOf_append, sleepsOf]
  · split
    · simp [sleepsOf_append, sleepsOf]
    · split <;> simp [sleepsOf_append, sleepsOf, postLoop_sleeps]

theorem processAtomSubscription_sleeps (w : World) (tr : List Event)
    (subscription : Subscription) :
    sleepsOf (processAtomSubscription w tr subscription).trace = sleepsOf tr := by
  unfold processAtomSubscription
  split
  · split <;> simp [sleepsOf_append, sleepsOf, postLoop_sleeps]
  · simp [sleepsOf_append, sleepsOf]

theorem processSubscription_sleeps (w : World) (tr : List Event)
    (subscription : Subscription) :
    sleepsOf (processSubscription w tr subscription).trace = sleepsOf tr := by
  unfold processSubscription
  split
  · rfl
  · split
    · have h := processRSSV2Subscription_sleeps w
        (tr ++ [.isValidFeed .rss2 subscription.URL]) subscription
      split
      · rename_i heq
        rw [heq] at h
        simpa [sleepsOf_append, sleepsOf] using h
      · simpa [sleepsOf_append, sleepsOf] using h
    · split
      · have h := processAtomSubscription_sleeps w
          (tr ++ [.isValidFeed .rss2 subscription.URL, .isValidFeed .atom subscription.URL])
          subscription
        split
        · rename_i heq
          rw [heq] at h
          simpa [sleepsOf_append, sleepsOf] using h
        · simpa [sleepsOf_append, sleepsOf] using h
      · simp [sleepsOf_append, sleepsOf]

theorem subscriptionLoop_sleeps (w : World) (subscriptions : List Subscription)
    (tr : List Event) :
    sleepsOf (subscriptionLoop w subscriptions tr).2 = sleepsOf tr := by
  induction subscriptions generalizing tr with
  | nil => rfl
  | cons value rest ih =>
    have h := processSubscription_sleeps w tr value
    unfold subscriptionLoop
    split
    · rename_i heq
      rw [heq] at h
      exact h
    · rename_i heq
      rw [heq] at h
      rw [ih]
      simpa [sleepsOf_append, sleepsOf] using h
    · rename_i heq
      rw [heq] at h
      rw [ih]
      exact h

theorem processHeartBeat_sleeps (w : World) (tr : List Event) :
    sleepsOf (processHeartBeat w tr).2 = sleepsOf tr := by
  unfold processHeartBeat
  split
  · simp [sleepsOf_append, sleepsOf]
  · rw [subscriptionLoop_sleeps]
    simp [sleepsOf_append, sleepsOf]

theorem heartbeatLoop_sleeps (heartbeatTime : Int) (flag : Nat → Bool) (world : Nat → World)
    (fuel cycle : Nat) (tr : List Event) :
    cycle ≤ (heartbeatLoop heartbeatTime flag world fuel cycle tr).cycles
      ∧ sleepsOf (heartbeatLoop heartbeatTime flag world fuel cycle tr).trace
        = sleepsOf tr ++ List.replicate
            ((heartbeatLoop heartbeatTime flag world fuel cycle tr).cycles - cycle)
            (sleepDuration heartbeatTime) := by
  induction fuel generalizing cycle tr with
  | zero => simp [heartbeatLoop]
  | succ fuel ih =>
    unfold heartbeatLoop
    split
    · have h := processHeartBeat_sleeps (world cycle) tr
      split
      · rename_i heq
        rw [heq] at h
        simpa using h
      · rename_i err t heq
        rw [heq] at h
        obtain ⟨hle, hs⟩ := ih (cycle + 1)
          (t ++ [.logError err, .sleep (sleepDuration heartbeatTime)])
        refine ⟨by omega, ?_⟩
        rw [hs]
        have hk : (heartbeatLoop heartbeatTime flag world fuel (cycle + 1)
              (t ++ [.logError err, .sleep (sleepDuration heartbeatTime)])).cycles - cycle
            = ((heartbeatLoop heartbeatTime flag world fuel (cycle + 1)
              (t ++ [.logError err, .sleep (sleepDuration heartbeatTime)])).cycles
                - (cycle + 1)) + 1 := by omega
        rw [hk, List.replicate_succ]
        simp only [Prod.snd] at h
        simp [sleepsOf_append, sleepsOf, h]
      · rename_i t heq
        rw [heq] at h
        obtain ⟨hle, hs⟩ := ih (cycle + 1) (t ++ [.sleep (sleepDuration heartbeatTime)])
        refine ⟨by omega, ?_⟩
        rw [hs]
        have hk : (heartbeatLoop heartbeatTime flag world fuel (cycle + 1)
              (t ++ [.sleep (sleepDuration heartbeatTime)])).cycles - cycle
            = ((heartbeatLoop heartbeatTime flag world fuel (cycle + 1)
              (t ++ [.sleep (sleepDuration heartbeatTime)])).cycles - (cycle + 1)) + 1 := by
          omega
        rw [hk, List.replicate_succ]
        simp only [Prod.snd] at h
        simp [sleepsOf_append, sleepsOf, h]
    · simp

theorem heartbeatLoop_running (heartbeatTime : Int) (flag : Nat → Bool) (world : Nat → World)
    (fuel cycle : Nat) (tr : List Event)
    (h : (heartbeatLoop heartbeatTime flag world fuel cycle tr).status = .running) :
    (heartbeatLoop heartbeatTime flag world fuel cycle tr).cycles = cycle + fuel := by
  induction fuel generalizing cycle tr with
  | zero => simp [heartbeatLoop]
  | succ fuel ih =>
    unfold heartbeatLoop at h ⊢
    split at h
    · rename_i hflag
      simp only [hflag, if_true]
      split at h
      · cases h
      · rw [ih _ _ h]
        omega
      · rw [ih _ _ h]
        omega
    · cases h

theorem setupHeartBeat_sleeps (start : configuration) (flag : Nat → Bool)
    (world : Nat → World) (fuel : Nat) :
    sleepsOf (setupHeartBeat start flag world fuel).trace
      = List.replicate (setupHeartBeat start flag world fuel).cycles
          (sleepDuration (getHeartbeatTime start).1) := by
  unfold setupHeartBeat
  split
  · rename_i heartbeatTime err heq
    rw [heq]
    have h := (heartbeatLoop_sleeps heartbeatTime flag world fuel 0 [.logNumError err]).2
    simpa [sleepsOf] using h
  · rename_i heartbeatTime heq
    rw [heq]
    have h := (heartbeatLoop_sleeps heartbeatTime flag world fuel 0 []).2
    simpa [sleepsOf] using h

theorem setupHeartBeat_running (start : configuration) (flag : Nat → Bool)
    (world : Nat → World) (fuel : Nat)
    (hr : (setupHeartBeat start flag world fuel).status = .running) :
    (setupHeartBeat start flag world fuel).cycles = fuel := by
  unfold setupHeartBeat at hr ⊢
  split at hr
  · rename_i heartbeatTime err heq
    simpa using heartbeatLoop_running heartbeatTime flag world fuel 0 _ hr
  · rename_i heartbeatTime heq
    simpa using heartbeatLoop_running heartbeatTime flag world fuel 0 _ hr

/-! ## Heartbeat interval and scheduling loop: claims -/

/-- C8, as stated, fails: the string of twenty nines is numeric (a decimal numeral,
denoting 99999999999999999999), yet `getHeartbeatTime` returns 15 and a range
error, not the integer it denotes. -/
theorem C8_numeric_out_of_range :
    isNumeral "99999999999999999999" = true
      ∧ numeralValue "99999999999999999999" = 99999999999999999999
      ∧ getHeartbeatTime ⟨"99999999999999999999", false⟩
        = (15, some ⟨"Atoi", "99999999999999999999", .outOfRange⟩) := by
  decide

/-- C8, amended: `getHeartbeatTime` returns 15 with a nil error for the empty
string; 15 with a non-nil error for a non-empty string that is not a decimal
numeral (an optional sign, then one or more decimal digits) and for a numeral that
denotes an integer outside the signed 64-bit range; and the denoted integer with a
nil error for a numeral inside that range. -/
theorem C8_getHeartbeatTime_by_numeral (config : configuration) :
    (config.Heartbeat = "" → getHeartbeatTime config = (15, none))
      ∧ (config.Heartbeat ≠ "" → isNumeral config.Heartbeat = false →
          ∃ e, getHeartbeatTime config = (15, some ⟨"Atoi", config.Heartbeat, e⟩))
      ∧ (isNumeral config.Heartbeat = true →
          (numeralValue config.Heartbeat < -(2 ^ 63 : Int)
            ∨ 2 ^ 63 - 1 < numeralValue config.Heartbeat) →
          getHeartbeatTime config = (15, some ⟨"Atoi", config.Heartbeat, .outOfRange⟩))
      ∧ (isNumeral config.Heartbeat = true →
          -(2 ^ 63 : Int) ≤ numeralValue config.Heartbeat →
          numeralValue config.Heartbeat ≤ 2 ^ 63 - 1 →
          getHeartbeatTime config = (numeralValue config.Heartbeat, none)) :=
  ⟨getHeartbeatTime_empty config, getHeartbeatTime_not_numeral config,
    getHeartbeatTime_out_of_range config, getHeartbeatTime_in_range config⟩

/-- C8 instances: the empty string, a word, a numeral below the range and a numeral
in the range. -/
theorem C8_getHeartbeatTime_by_numeral_witness :
    getHeartbeatTime ⟨"", true⟩ = (15, none)
      ∧ (∃ e, getHeartbeatTime ⟨"soon", true⟩ = (15, some ⟨"Atoi", "soon", e⟩))
      ∧ getHeartbeatTime ⟨"-9223372036854775809", true⟩
        = (15, some ⟨"Atoi", "-9223372036854775809", .outOfRange⟩)
      ∧ (numeralValue "30" = 30 ∧ getHeartbeatTime ⟨"30", true⟩ = (numeralValue "30", none)) :=
  ⟨(C8_getHeartbeatTime_by_numeral ⟨"", true⟩).1 rfl,
   (C8_getHeartbeatTime_by_numeral ⟨"soon", true⟩).2.1 (by decide) (by decide),
   (C8_getHeartbeatTime_by_numeral ⟨"-9223372036854775809", true⟩).2.2.1 (by decide)
     (Or.inl (by decide)),
   ⟨by decide,
    (C8_getHeartbeatTime_by_numeral ⟨"30", true⟩).2.2.2 (by decide) (by decide) (by decide)⟩⟩

/-- C9, as stated, fails: the Heartbeat string `0` is returned as the interval 0,
which is not strictly positive, and the loop then sleeps for no time at all; `-5`
gives the interval -5. Nor is a positive interval always a positive sleep: for
`153722868` the duration in nanoseconds wraps around to a negative value. -/
theorem C9_interval_not_always_positive :
    getHeartbeatTime ⟨"0", false⟩ = (0, none)
      ∧ ¬ (0 < (getHeartbeatTime ⟨"0", false⟩).1)
      ∧ sleepsOf (setupHeartBeat ⟨"0", false⟩ (fun _ => true) (fun _ => downWorld) 2).trace
        = [0, 0]
      ∧ getHeartbeatTime ⟨"-5", false⟩ = (-5, none)
      ∧ getHeartbeatTime ⟨"153722868", false⟩ = (153722868, none)
      ∧ sleepDuration 153722868 < 0 := by
  decide

/-- C9, amended: the interval returned by `getHeartbeatTime` is strictly positive
exactly when the Heartbeat string is not a decimal numeral denoting an integer
between -2^63 and 0 (such a numeral is returned as it is); and when the interval is
positive and at most 153722867, every sleep of the scheduling loop, one per
completed cycle, lasts exactly that many minutes, a positive duration. -/
theorem C9_positive_interval_and_sleep (config : configuration) (flag : Nat → Bool)
    (world : Nat → World) (fuel : Nat) :
    (0 < (getHeartbeatTime config).1 ↔
        ¬ (isNumeral config.Heartbeat = true
            ∧ -(2 ^ 63 : Int) ≤ numeralValue config.Heartbeat
            ∧ numeralValue config.Heartbeat ≤ 0))
      ∧ (0 < (getHeartbeatTime config).1 → (getHeartbeatTime config).1 ≤ maxWholeMinutes →
          sleepsOf (setupHeartBeat config flag world fuel).trace
              = List.replicate (setupHeartBeat config flag world fuel).cycles
                  ((getHeartbeatTime config).1 * 60000000000)
            ∧ 0 < (getHeartbeatTime config).1 * 60000000000) := by
  constructor
  · by_cases he : config.Heartbeat = ""
    · have hn : isNumeral config.Heartbeat = false := by
        rw [he]
        decide
      rw [getHeartbeatTime_empty config he]
      simp [hn]
    · cases hn : isNumeral config.Heartbeat with
      | false =>
        obtain ⟨e, hg⟩ := getHeartbeatTime_not_numeral config he hn
        rw [hg]
        simp
      | true =>
        by_cases hr : numeralValue config.Heartbeat < -(2 ^ 63 : Int)
            ∨ 2 ^ 63 - 1 < numeralValue config.Heartbeat
        · rw [getHeartbeatTime_out_of_range config hn hr]
          simp only [true_and, not_and, not_le]
          constructor
          · intro _ hlo
            omega
          · intro _
            decide
        · rw [getHeartbeatTime_in_range config hn (by omega) (by omega)]
          simp only [true_and, not_and, not_le]
          constructor
          · intro h _
            exact h
          · intro h
            exact h (by omega)
  · intro hpos hmax
    have hmin : -maxWholeMinutes ≤ (getHeartbeatTime config).1 := by
      unfold maxWholeMinutes
      norm_num
      omega
    rw [setupHeartBeat_sleeps, sleepDuration_exact _ hmin hmax]
    exact ⟨rfl, by omega⟩

/-- C9 instance: the Heartbeat string `30`; three cycles, three sleeps of thirty
minutes. -/
theorem C9_positive_interval_and_sleep_witness :
    0 < (getHeartbeatTime ⟨"30", false⟩).1
      ∧ (getHeartbeatTime ⟨"30", false⟩).1 ≤ maxWholeMinutes
      ∧ sleepsOf (setupHeartBeat ⟨"30", false⟩ (fun _ => true) (fun _ => downWorld) 3).trace
        = [1800000000000, 1800000000000, 1800000000000] :=
  ⟨by decide, by decide,
   by
     rw [((C9_positive_interval_and_sleep ⟨"30", false⟩ (fun _ => true) (fun _ => downWorld)
       3).2 (by decide) (by decide)).1]
     decide⟩

/-- C10, as stated, fails: the configured Heartbeat is `1` when the loop starts and
`2` from cycle 1 on; the sleep that follows cycle 1 still lasts one minute, not the
two minutes configured in that cycle. -/
theorem C10_interval_read_once :
    (getHeartbeatTime (changingWorld 1).config).1 = 2
      ∧ sleepsOf (setupHeartBeat ⟨"1", false⟩ (fun cycle => decide (cycle < 2))
          changingWorld 5).trace = [sleepDuration 1, sleepDuration 1]
      ∧ (sleepsOf (setupHeartBeat ⟨"1", false⟩ (fun cycle => decide (cycle < 2))
          changingWorld 5).trace)[1]?
        ≠ some (sleepDuration (getHeartbeatTime (changingWorld 1).config).1) := by
  decide

/-- C10, amended: the heartbeat interval is read once, from the configuration as it
stands when `setupHeartBeat` is entered (15 on a parse error); every sleep of the
loop, one per completed cycle, is given the duration
`time.Duration(interval) * time.Minute` of that interval, whatever the configuration
is during the cycles: the product of the interval and 60000000000 nanoseconds
reduced to a signed 64-bit integer, which is exactly the interval in minutes when
its absolute value is at most 153722867. A loop still running after `fuel` cycles
has slept `fuel` times. -/
theorem C10_every_sleep_is_initial_interval (start : configuration) (flag : Nat → Bool)
    (world : Nat → World) (fuel : Nat) :
    sleepsOf (setupHeartBeat start flag world fuel).trace
        = List.replicate (setupHeartBeat start flag world fuel).cycles
            (((getHeartbeatTime start).1 * 60000000000 + 2 ^ 63) % 2 ^ 64 - 2 ^ 63)
      ∧ (-153722867 ≤ (getHeartbeatTime start).1 → (getHeartbeatTime start).1 ≤ 153722867 →
          sleepsOf (setupHeartBeat start flag world fuel).trace
            = List.replicate (setupHeartBeat start flag world fuel).cycles
                ((getHeartbeatTime start).1 * 60000000000))
      ∧ ((setupHeartBeat start flag world fuel).status = .running →
          (setupHeartBeat start flag world fuel).cycles = fuel) := by
  refine ⟨setupHeartBeat_sleeps start flag world fuel, fun hlo hhi => ?_,
    setupHeartBeat_running start flag world fuel⟩
  rw [setupHeartBeat_sleeps, sleepDuration_exact _ (by unfold maxWholeMinutes; norm_num; omega)
    (by unfold maxWholeMinutes; norm_num; omega)]

/-- C10 instance: three cycles under a configuration that changes after the first
one; the loop is still running and has slept three times, one minute each. -/
theorem C10_every_sleep_is_initial_interval_witness :
    (setupHeartBeat ⟨"1", false⟩ (fun _ => true) changingWorld 3).status = .running
      ∧ (setupHeartBeat ⟨"1", false⟩ (fun _ => true) changingWorld 3).cycles = 3
      ∧ sleepsOf (setupHeartBeat ⟨"1", false⟩ (fun _ => true) changingWorld 3).trace
        = [60000000000, 60000000000, 60000000000] :=
  ⟨by decide,
   (C10_every_sleep_is_initial_interval ⟨"1", false⟩ (fun _ => true) changingWorld 3).2.2
     (by decide),
   by
     rw [(C10_every_sleep_is_initial_interval ⟨"1", false⟩ (fun _ => true) changingWorld 3).2.1
       (by decide) (by decide)]
     decide⟩

end RSSFeed
